import Mathlib

/-!
Shallow embedding of the asynchronous task and stream-multiplexing core of the
rcontrol library (rcontrol/streamreader.py, rcontrol/core.py, rcontrol/local.py),
together with proofs of behavioural properties stated in its specification.
-/

namespace RControl

/-!
Stream multiplexer: StreamsReader._read (rcontrol/streamreader.py, lines 88-129).

The merge thread is driven by its environment: the aliveness of the reader
threads, the outcome of each bounded queue poll, and the clock value read in
each iteration.  One Poll record holds exactly the data one iteration of the
while loop consumes: the value of the while condition
((stdout_reader and stdout_reader.is_alive()) or (stderr_reader and
stderr_reader.is_alive())), the result of queue.get(True, 0.02) (none models
the Empty exception), and the value time.time() returned in that iteration.
The residual list is the queue content found by the drain loop after the
readers were observed dead.  Time is a rational number (Python uses floating
point seconds).
-/

/-- Source tag of a queued line: which line callback it was enqueued with. -/
inductive Src
  | stdout
  | stderr
deriving DecidableEq

/-- Characters removed by Python str.rstrip() called with no argument. -/
def isPyWhitespace (c : Char) : Bool :=
  c = ' ' || c = '\t' || c = '\n' || c = '\r' || c = '\x0b' || c = '\x0c'

/-- Python str.rstrip() with no argument: remove every trailing whitespace
character, as done in line.rstrip() at streamreader.py lines 113 and 123. -/
def pyRstrip (s : List Char) : List Char :=
  (s.reverse.dropWhile isPyWhitespace).reverse

/-- One callback invocation issued by the merge thread. -/
inductive Ev
  | line (src : Src) (s : List Char)
  | timedOut
  | finished
deriving DecidableEq

/-- True exactly on line-callback events. -/
def Ev.isLine : Ev → Bool
  | Ev.line _ _ => true
  | Ev.timedOut => false
  | Ev.finished => false

/-- Environment data consumed by one iteration of the merge loop. -/
structure Poll where
  alive : Bool
  item : Option (List Char × Src)
  now : ℚ
deriving DecidableEq

/-- The check "now > deadline" where a deadline of none means the timeout is
disabled (the code guards each comparison with "is not None"). -/
def deadlineExceeded (deadline : Option ℚ) (now : ℚ) : Bool :=
  match deadline with
  | some d => decide (d < now)
  | none => false

/-- The while loop of StreamsReader._read (streamreader.py lines 98-116).
The first explicit argument is self.output_timeout (used to reset the idle
deadline), the second the absolute total-duration deadline; the third argument
is the current absolute output-idle deadline.  An exhausted or non-alive
schedule models the while condition turning false.  Returns the line events
emitted, in order, and the final value of the timed_out flag. -/
def mergeLoop (self_output_timeout timeout : Option ℚ) :
    Option ℚ → List Poll → List Ev × Bool
  | _, [] => ([], false)
  | output_timeout, p :: rest =>
    if p.alive then
      match p.item with
      | none =>
        if deadlineExceeded output_timeout p.now then ([], true)
        else if deadlineExceeded timeout p.now then ([], true)
        else mergeLoop self_output_timeout timeout output_timeout rest
      | some itm =>
        let output_timeout' :=
          if output_timeout.isSome then
            self_output_timeout.map (fun d => p.now + d)
          else output_timeout
        if deadlineExceeded timeout p.now then
          ([Ev.line itm.2 (pyRstrip itm.1)], true)
        else
          let r := mergeLoop self_output_timeout timeout output_timeout' rest
          (Ev.line itm.2 (pyRstrip itm.1) :: r.1, r.2)
    else ([], false)

/-- StreamsReader._read (streamreader.py lines 88-129).  Computes the absolute
deadlines from the configured timeouts and the start time, runs the merge
loop, and issues the terminal callback: on timeout it invokes the timeout
callback and returns; otherwise it drains the residual queue content through
the line callbacks, joins the readers (a no-op in this sequential model) and
invokes the finished callback.  The result is the ordered list of callback
invocations. -/
def StreamsReader.read (self_output_timeout self_timeout : Option ℚ)
    (start_time : ℚ) (polls : List Poll) (residual : List (List Char × Src)) :
    List Ev :=
  let timeout := self_timeout.map (fun t => t + start_time)
  let output_timeout := self_output_timeout.map (fun t => t + start_time)
  let r := mergeLoop self_output_timeout timeout output_timeout polls
  if r.2 then r.1 ++ [Ev.timedOut]
  else
    r.1 ++ residual.map (fun itm => Ev.line itm.2 (pyRstrip itm.1)) ++
      (if r.2 = false then [Ev.finished] else [])

/-- The merge loop exactly as StreamsReader._read invokes it: both deadlines
are the configured timeouts offset by the start time (streamreader.py lines
89-96). -/
def mergeRun (self_output_timeout self_timeout : Option ℚ) (start_time : ℚ)
    (polls : List Poll) : List Ev × Bool :=
  mergeLoop self_output_timeout (self_timeout.map (fun t => t + start_time))
    (self_output_timeout.map (fun t => t + start_time)) polls

/-- The transformation the specification describes for delivered lines:
remove exactly the trailing line terminator, keeping any other trailing
whitespace.  Stated from the wording of the spec, for comparison with
pyRstrip, which is what the code actually applies. -/
def stripTrailingNewlineSpec (s : List Char) : List Char :=
  if s.getLast? = some '\n' then s.dropLast else s

/-!
Session and task bookkeeping: BaseSession and Task (rcontrol/core.py).

The session owns a live-task list and a silent-error list.  Tasks are
identified by indices into a fixed environment.  A TaskSpec records the
observable behaviour of one task: the value its error() accessor returns once
it has finished, the tasks its finished callback registers on the same
session while it is being waited, and whether the task unregisters itself on
completion (well-behaved tasks do; wait_for_tasks must not loop forever even
when one does not).  Errors are identified by numbers.  The model is the
sequential interleaving in which a task finishes during the task.wait call
made on it, which is the order wait_for_tasks observes.
-/

/-- Identifier of an error value carried by a task. -/
abbrev ErrId := Nat

/-- Observable behaviour of one task, indexed by its identifier. -/
structure TaskSpec where
  err : Option ErrId
  spawns : List Nat
  unregisters : Bool
deriving DecidableEq

/-- Mutable state of one BaseSession together with the per-task
explicit_wait flags: the live-task list self._tasks, the silent-error list
self._silent_errors, and the set of tasks whose explicit_wait is True. -/
structure SessionState where
  live : List Nat
  silent : List ErrId
  waited : List Nat
deriving DecidableEq

/-- The value task.error() returns, for a task identifier. -/
def errOf (env : List TaskSpec) (t : Nat) : Option ErrId :=
  (env.get? t).bind TaskSpec.err

/-- The tasks registered by this task's finished callback. -/
def spawnsOf (env : List TaskSpec) (t : Nat) : List Nat :=
  ((env.get? t).map TaskSpec.spawns).getD []

/-- Whether this task unregisters itself from the session on completion. -/
def unregistersOf (env : List TaskSpec) (t : Nat) : Bool :=
  ((env.get? t).map TaskSpec.unregisters).getD true

/-- BaseSession._unregister_task (core.py lines 142-152): remove the task from
the live list, swallowing the ValueError when it is absent (list.remove drops
the first occurrence only); then, when the task was not explicitly waited and
its error() is non-None, append that error to the silent-error list.  Note
the silent-error capture runs whether or not the task was still live. -/
def unregisterTask (env : List TaskSpec) (st : SessionState) (t : Nat) :
    SessionState :=
  let st1 : SessionState := { st with live := st.live.erase t }
  if t ∉ st1.waited then
    match errOf env t with
    | some e => { st1 with silent := st1.silent ++ [e] }
    | none => st1
  else st1

/-- Task.wait in the sequential model: set explicit_wait, then block until the
task finishes; on completion the worker thread unregisters the task (when it
is well behaved) and the finished callback registers the spawned tasks
(core.py lines 93-101 and 487-490). -/
def waitTask (env : List TaskSpec) (st : SessionState) (t : Nat) :
    SessionState :=
  let st1 : SessionState := { st with waited := t :: st.waited }
  let st2 := if unregistersOf env t then unregisterTask env st1 t else st1
  { st2 with live := st2.live ++ spawnsOf env t }

/-- One step of the for loop of wait_for_tasks (core.py lines 197-201): wait
on the task without raising, then collect its error if any. -/
def waitIteration (env : List TaskSpec) (acc : SessionState × List ErrId)
    (t : Nat) : SessionState × List ErrId :=
  let st := waitTask env acc.1 t
  match errOf env t with
  | some e => (st, acc.2 ++ [e])
  | none => (st, acc.2)

/-- The snapshot "set(self._tasks) - tasks_seen" taken at the top of each
wait_for_tasks iteration (core.py lines 190-191), as a duplicate-free list in
live-list order (the Python set iteration order is unspecified; no claim
depends on the order). -/
def unseenTasks (st : SessionState) (seen : List Nat) : List Nat :=
  st.live.dedup.filter (fun t => decide (t ∉ seen))

/-- The while loop of BaseSession.wait_for_tasks (core.py lines 186-205),
with explicit fuel standing for the number of iterations still allowed (the
Python loop is unbounded; the termination theorem shows env.length + 1
iterations always reach the fixed point).  Each iteration extends the
collected errors with the silent errors, snapshots the live tasks not yet
seen in this call, and either stops (clearing the silent errors) or waits on
each unseen task, collects its error, clears the silent errors and repeats.
Returns the collected errors, the final session state and the list of tasks
waited on, in order. -/
def waitLoop (env : List TaskSpec) :
    Nat → SessionState → List Nat → List ErrId →
      Option (List ErrId × SessionState × List Nat)
  | 0, _, _, _ => none
  | fuel + 1, st, seen, errors =>
    let errors1 := errors ++ st.silent
    let tasks := unseenTasks st seen
    if tasks = [] then
      some (errors1, { st with silent := [] }, seen)
    else
      let acc := tasks.foldl (waitIteration env) (st, errors1)
      waitLoop env fuel { acc.1 with silent := [] } (seen ++ tasks) acc.2

/-- BaseSession.wait_for_tasks (core.py lines 161-208), started with no seen
tasks and no collected errors.  With raise_if_error the error list is raised
as a TaskErrors instead of returned; the error list itself is the same. -/
def wait_for_tasks (env : List TaskSpec) (st : SessionState) :
    Option (List ErrId × SessionState × List Nat) :=
  waitLoop env (env.length + 1) st [] []

/-!
CommandTask (rcontrol/core.py lines 389-531).
-/

/-- An error value returned by CommandTask.error. -/
inductive TaskErr
  | timeoutError
  | exitCodeError (got : Int)
deriving DecidableEq

/-- The fields of a CommandTask that its error() accessor reads. -/
structure CommandTaskState where
  timed_out : Bool
  exit_code : Option Int
  expected_exit_code : Option Int
deriving DecidableEq

/-- CommandTask.error (core.py lines 504-517): a TimeoutError when the reader
signalled a timeout; else an ExitCodeError when the exit code was recorded,
an expected exit code was given, and the two differ; else None (a Python
function falling off the end returns None). -/
def CommandTask.error (t : CommandTaskState) : Option TaskErr :=
  if t.timed_out then some TaskErr.timeoutError
  else
    match t.exit_code, t.expected_exit_code with
    | some c, some e => if c ≠ e then some (TaskErr.exitCodeError c) else none
    | _, _ => none

/-- The combine_stderr default computation in CommandTask.__init__ (core.py
lines 430-431): when the argument is None it becomes "not stderr_callback".
The booleans record whether a callable was supplied for the new on_stderr
parameter and for the deprecated stderr_callback parameter; the deprecation
aliasing (line 452-454) runs only after this default has been computed, so
only the deprecated parameter participates in it. -/
def CommandTask.init_combine_stderr (combine_stderr : Option Bool)
    (on_stderr stderr_callback : Bool) : Bool :=
  match combine_stderr with
  | none => !stderr_callback
  | some b => b

/-!
LocalSession.walk (rcontrol/local.py lines 84-85).
-/

/-- A (directory, subdirectories, files) triple as yielded by os.walk. -/
abbrev WalkTriple := String × List String × List String

/-- LocalSession.walk: the body evaluates os.walk(top, topdown=topdown,
onerror=onerror, followlinks=followlinks) — modelled by the abstract oswalk
argument, applied to the path, the topdown flag, whether an onerror hook was
supplied, and the followlinks flag — and discards the resulting generator; a
Python function body with no return statement returns None. -/
def LocalSession.walk
    (oswalk : String → Bool → Bool → Bool → List WalkTriple) (top : String)
    (topdown : Bool) (has_onerror : Bool) (followlinks : Bool) :
    Option (List WalkTriple) :=
  let _ := oswalk top topdown has_onerror followlinks
  none

/-!
Concrete inputs used by the witness and counterexample theorems.
-/

/-- A clean run: one line is polled, then the readers are observed dead while
one more line sits in the queue. -/
def pollsW2 : List Poll :=
  [{ alive := true, item := some (['o', 'k', '\n'], Src.stdout), now := 1 },
   { alive := false, item := none, now := 2 }]

/-- The queue content found by the final drain in the pollsW2 run. -/
def residualW2 : List (List Char × Src) := [(['l', 'a', 't', 'e', '\r'], Src.stderr)]

/-- A run delivering a single line whose content ends in a space. -/
def pollsW9 : List Poll :=
  [{ alive := true, item := some (['a', ' ', '\n'], Src.stdout), now := 1 }]

/-- One task carrying error 7, spawning nothing, well behaved. -/
def envW4 : List TaskSpec := [{ err := some 7, spawns := [], unregisters := true }]

/-- Session in which task 0 is live and nothing was waited. -/
def stW4 : SessionState := { live := [0], silent := [], waited := [] }

/-- Task 0 spawns task 1 from its finished callback; task 1 fails with
error 5. -/
def envW5 : List TaskSpec :=
  [{ err := none, spawns := [1], unregisters := true },
   { err := some 5, spawns := [], unregisters := true }]

/-- Session in which only task 0 is live. -/
def stW5 : SessionState := { live := [0], silent := [], waited := [] }

/-- One task carrying error 3, used for the unregistration claims. -/
def envW8 : List TaskSpec := [{ err := some 3, spawns := [], unregisters := true }]

/-- Session in which task 0 is live. -/
def stW8 : SessionState := { live := [0], silent := [], waited := [] }

/-- Session with no live task, for unregistering an absent task. -/
def stW8b : SessionState := { live := [], silent := [], waited := [] }

/-- One task that never unregisters itself from the session. -/
def envW10 : List TaskSpec := [{ err := none, spawns := [], unregisters := false }]

/-- Session in which the ill-behaved task 0 is live. -/
def stW10 : SessionState := { live := [0], silent := [], waited := [] }

/-- A concrete stand-in for os.walk used by the walk witness. -/
def oswalkW6 : String → Bool → Bool → Bool → List WalkTriple :=
  fun _ _ _ _ => [("/tmp/d", ["sub"], ["f.txt"])]

theorem mergeLoop_events_are_lines (so t : Option ℚ) :
    ∀ (od : Option ℚ) (polls : List Poll) (e : Ev),
      e ∈ (mergeLoop so t od polls).1 → Ev.isLine e = true := by
  intro od polls
  induction polls generalizing od with
  | nil => intro e he; simp [mergeLoop] at he
  | cons p rest ih =>
    intro e he
    simp only [mergeLoop] at he
    split at he
    · split at he
      · split at he
        · simp at he
        · split at he
          · simp at he
          · exact ih _ e he
      · split at he
        · simp at he
          subst he
          rfl
        · simp only [List.mem_cons] at he
          rcases he with he | he
          · subst he; rfl
          · exact ih _ e he
    · simp at he


theorem mergeLoop_line_provenance (so t : Option ℚ) :
    ∀ (od : Option ℚ) (polls : List Poll) (src : Src) (s : List Char),
      Ev.line src s ∈ (mergeLoop so t od polls).1 →
      ∃ raw, some (raw, src) ∈ polls.map Poll.item ∧ s = pyRstrip raw := by
  intro od polls
  induction polls generalizing od with
  | nil => intro src s h; simp [mergeLoop] at h
  | cons p rest ih =>
    intro src s h
    simp only [mergeLoop] at h
    split at h
    · split at h
      · split at h
        · simp at h
        · split at h
          · simp at h
          · obtain ⟨raw, hmem, hs⟩ := ih _ src s h
            exact ⟨raw, List.mem_cons_of_mem _ hmem, hs⟩
      · next itm hitem =>
        split at h
        · simp only [List.mem_singleton, Ev.line.injEq] at h
          refine ⟨itm.1, List.mem_cons.mpr (Or.inl ?_), h.2⟩
          rw [h.1, hitem]
        · simp only [List.mem_cons, Ev.line.injEq] at h
          rcases h with ⟨h1, h2⟩ | h
          · refine ⟨itm.1, List.mem_cons.mpr (Or.inl ?_), h2⟩
            rw [h1, hitem]
          · obtain ⟨raw, hmem, hs⟩ := ih _ src s h
            exact ⟨raw, List.mem_cons_of_mem _ hmem, hs⟩
    · simp at h

theorem mergeRun_events_are_lines (so st : Option ℚ) (t0 : ℚ)
    (polls : List Poll) :
    ∀ e ∈ (mergeRun so st t0 polls).1, Ev.isLine e = true := by
  intro e he
  exact mergeLoop_events_are_lines _ _ _ _ e he

theorem mergeRun_line_provenance (so st : Option ℚ) (t0 : ℚ)
    (polls : List Poll) (src : Src) (s : List Char) :
    Ev.line src s ∈ (mergeRun so st t0 polls).1 →
    ∃ raw, some (raw, src) ∈ polls.map Poll.item ∧ s = pyRstrip raw := by
  intro h
  exact mergeLoop_line_provenance _ _ _ _ src s h

theorem read_eq_of_timedOut (so st : Option ℚ) (t0 : ℚ) (polls : List Poll)
    (residual : List (List Char × Src))
    (h : (mergeRun so st t0 polls).2 = true) :
    StreamsReader.read so st t0 polls residual =
      (mergeRun so st t0 polls).1 ++ [Ev.timedOut] := by
  have h' : (mergeLoop so (st.map (fun t => t + t0))
      (so.map (fun t => t + t0)) polls).2 = true := h
  simp only [StreamsReader.read, mergeRun, h', if_true]

theorem read_eq_of_finished (so st : Option ℚ) (t0 : ℚ) (polls : List Poll)
    (residual : List (List Char × Src))
    (h : (mergeRun so st t0 polls).2 = false) :
    StreamsReader.read so st t0 polls residual =
      (mergeRun so st t0 polls).1 ++
        residual.map (fun itm => Ev.line itm.2 (pyRstrip itm.1)) ++
          [Ev.finished] := by
  have h' : (mergeLoop so (st.map (fun t => t + t0))
      (so.map (fun t => t + t0)) polls).2 = false := h
  simp [StreamsReader.read, mergeRun, h']

/-- Claim C1: every run of StreamsReader._read issues exactly one terminal
callback — the timeout callback or the finished callback, never both — as the
final event of the run; every line callback is invoked strictly before it,
and after it no callback of any kind is issued. -/
theorem read_single_terminal (self_ot self_to : Option ℚ) (start_time : ℚ)
    (polls : List Poll) (residual : List (List Char × Src)) :
    ∃ pre t,
      StreamsReader.read self_ot self_to start_time polls residual = pre ++ [t] ∧
      (t = Ev.timedOut ∨ t = Ev.finished) ∧
      ∀ e ∈ pre, Ev.isLine e = true := by
  cases h2 : (mergeRun self_ot self_to start_time polls).2 with
  | true =>
    refine ⟨(mergeRun self_ot self_to start_time polls).1, Ev.timedOut,
      read_eq_of_timedOut self_ot self_to start_time polls residual h2,
      Or.inl rfl, ?_⟩
    exact mergeRun_events_are_lines self_ot self_to start_time polls
  | false =>
    refine ⟨(mergeRun self_ot self_to start_time polls).1 ++
        residual.map (fun itm => Ev.line itm.2 (pyRstrip itm.1)), Ev.finished,
      read_eq_of_finished self_ot self_to start_time polls residual h2,
      Or.inr rfl, ?_⟩
    intro e he
    rcases List.mem_append.1 he with he | he
    · exact mergeRun_events_are_lines self_ot self_to start_time polls e he
    · rcases List.mem_map.1 he with ⟨itm, _, rfl⟩
      rfl

/-- Claim C1 witness: the single-terminal property on a concrete run with a
dequeued line, a queued residual line and no timeout. -/
theorem read_single_terminal_witness :
    ∃ pre t,
      StreamsReader.read none none 0 pollsW2 residualW2 = pre ++ [t] ∧
      (t = Ev.timedOut ∨ t = Ev.finished) ∧
      ∀ e ∈ pre, Ev.isLine e = true :=
  read_single_terminal none none 0 pollsW2 residualW2

/-- Claim C2: when the merge loop exits because both readers were observed
finished — so the timed_out flag was never set — the final drain invokes a
line callback for every event still queued, the finished callback is invoked
exactly once, and no timeout is reported during or after that drain, whatever
the configured deadlines and the clock values were. -/
theorem read_clean_drain_finishes (self_ot self_to : Option ℚ) (start_time : ℚ)
    (polls : List Poll) (residual : List (List Char × Src))
    (h : (mergeRun self_ot self_to start_time polls).2 = false) :
    (∀ itm ∈ residual,
        Ev.line itm.2 (pyRstrip itm.1) ∈
          StreamsReader.read self_ot self_to start_time polls residual) ∧
    Ev.timedOut ∉ StreamsReader.read self_ot self_to start_time polls residual ∧
    (StreamsReader.read self_ot self_to start_time polls residual).count
        Ev.finished = 1 := by
  rw [read_eq_of_finished self_ot self_to start_time polls residual h]
  have hlines := mergeRun_events_are_lines self_ot self_to start_time polls
  refine ⟨?_, ?_, ?_⟩
  · intro itm hitm
    exact List.mem_append_left _
      (List.mem_append_right _ (List.mem_map_of_mem _ hitm))
  · intro hmem
    rcases List.mem_append.1 hmem with hmem | hmem
    · rcases List.mem_append.1 hmem with hmem | hmem
      · exact absurd (hlines _ hmem) (by simp [Ev.isLine])
      · rcases List.mem_map.1 hmem with ⟨itm, _, hit⟩
        exact absurd hit (by simp)
    · simp at hmem
  · rw [List.count_append, List.count_append]
    have h1 : (mergeRun self_ot self_to start_time polls).1.count Ev.finished = 0 := by
      rw [List.count_eq_zero]
      intro hmem
      exact absurd (hlines _ hmem) (by simp [Ev.isLine])
    have hm : (residual.map fun itm => Ev.line itm.2 (pyRstrip itm.1)).count
        Ev.finished = 0 := by
      rw [List.count_eq_zero]
      intro hmem
      rcases List.mem_map.1 hmem with ⟨itm, _, hit⟩
      exact absurd hit (by simp)
    simp [h1, hm]

/-- Claim C2 witness: the clean-drain property on a concrete run in which a
line is still queued when the readers are observed dead. -/
theorem read_clean_drain_finishes_witness :
    (∀ itm ∈ residualW2,
        Ev.line itm.2 (pyRstrip itm.1) ∈
          StreamsReader.read none none 0 pollsW2 residualW2) ∧
    Ev.timedOut ∉ StreamsReader.read none none 0 pollsW2 residualW2 ∧
    (StreamsReader.read none none 0 pollsW2 residualW2).count Ev.finished = 1 :=
  read_clean_drain_finishes none none 0 pollsW2 residualW2 (by decide)

/-- Claim C9 counterexample: the code strips all trailing whitespace with
str.rstrip(), not only the line terminator.  For the raw line "a \n" the
line callback receives "a", not the "a " the claim predicts, and the event
the claim predicts never occurs in the run. -/
theorem read_keeps_trailing_whitespace_cx :
    StreamsReader.read none none 0 pollsW9 [] =
      [Ev.line Src.stdout ['a'], Ev.finished] ∧
    stripTrailingNewlineSpec ['a', ' ', '\n'] = ['a', ' '] ∧
    Ev.line Src.stdout (stripTrailingNewlineSpec ['a', ' ', '\n']) ∉
      StreamsReader.read none none 0 pollsW9 [] := by
  decide

/-- Claim C9 (amended): every line callback — for a dequeued event or one
drained after completion — receives the raw line with all trailing whitespace
stripped, as Python str.rstrip() does: trailing spaces, tabs and carriage
returns are removed together with the line terminator.  The raw line is one
the readers enqueued or one found in the residual queue. -/
theorem read_line_callbacks_rstripped (self_ot self_to : Option ℚ)
    (start_time : ℚ) (polls : List Poll) (residual : List (List Char × Src)) :
    ∀ src s,
      Ev.line src s ∈
        StreamsReader.read self_ot self_to start_time polls residual →
      ∃ raw, (some (raw, src) ∈ polls.map Poll.item ∨ (raw, src) ∈ residual) ∧
        s = pyRstrip raw := by
  intro src s h
  cases h2 : (mergeRun self_ot self_to start_time polls).2 with
  | true =>
    rw [read_eq_of_timedOut self_ot self_to start_time polls residual h2] at h
    rcases List.mem_append.1 h with h | h
    · obtain ⟨raw, hmem, hs⟩ :=
        mergeRun_line_provenance self_ot self_to start_time polls src s h
      exact ⟨raw, Or.inl hmem, hs⟩
    · simp at h
  | false =>
    rw [read_eq_of_finished self_ot self_to start_time polls residual h2] at h
    rcases List.mem_append.1 h with h | h
    · rcases List.mem_append.1 h with h | h
      · obtain ⟨raw, hmem, hs⟩ :=
          mergeRun_line_provenance self_ot self_to start_time polls src s h
        exact ⟨raw, Or.inl hmem, hs⟩
      · rcases List.mem_map.1 h with ⟨itm, hitm, hit⟩
        obtain ⟨h1, h2'⟩ := Ev.line.inj hit.symm
        exact ⟨itm.1, Or.inr (by rw [h1]; exact hitm), h2'⟩
    · simp at h

/-- Claim C9 (amended) witness: the provenance property applied to the line
event of the concrete run delivering "a \n". -/
theorem read_line_callbacks_rstripped_witness :
    ∃ raw,
      (some (raw, Src.stdout) ∈ pollsW9.map Poll.item ∨
        (raw, Src.stdout) ∈ ([] : List (List Char × Src))) ∧
      ['a'] = pyRstrip raw :=
  read_line_callbacks_rstripped none none 0 pollsW9 [] Src.stdout ['a']
    (by decide)

theorem unregisterTask_silent_of_waited (env : List TaskSpec)
    (st : SessionState) (t : Nat) (h : t ∈ st.waited) :
    (unregisterTask env st t).silent = st.silent := by
  simp only [unregisterTask]
  rw [if_neg (by simpa using h)]

theorem unregisterTask_waited (env : List TaskSpec) (st : SessionState)
    (t : Nat) : (unregisterTask env st t).waited = st.waited := by
  simp only [unregisterTask]
  split
  · cases he : errOf env t <;> simp [he]
  · rfl

theorem unregisterTask_live (env : List TaskSpec) (st : SessionState)
    (t : Nat) : (unregisterTask env st t).live = st.live.erase t := by
  simp only [unregisterTask]
  split
  · cases he : errOf env t <;> simp [he]
  · rfl

theorem waitTask_silent (env : List TaskSpec) (st : SessionState) (t : Nat) :
    (waitTask env st t).silent = st.silent := by
  simp only [waitTask]
  split
  · exact unregisterTask_silent_of_waited env _ t (List.mem_cons_self t st.waited)
  · rfl

theorem waitTask_waited (env : List TaskSpec) (st : SessionState) (t : Nat) :
    (waitTask env st t).waited = t :: st.waited := by
  simp only [waitTask]
  split
  · exact unregisterTask_waited env _ t
  · rfl

theorem waitTask_live_mem (env : List TaskSpec) (st : SessionState)
    (t s : Nat) (h : s ∈ st.live ∨ s ∈ spawnsOf env t) :
    s ∈ (waitTask env st t).live ∨ s = t := by
  rcases h with h | h
  · by_cases hst : s = t
    · exact Or.inr hst
    · refine Or.inl ?_
      simp only [waitTask]
      split
      · rw [unregisterTask_live]
        exact List.mem_append_left _ ((List.mem_erase_of_ne hst).2 h)
      · exact List.mem_append_left _ h
  · refine Or.inl ?_
    simp only [waitTask]
    split
    · exact List.mem_append_right _ h
    · exact List.mem_append_right _ h

theorem spawnsOf_bound (env : List TaskSpec) (t n : Nat)
    (hsp : ∀ spec ∈ env, ∀ s ∈ spec.spawns, s < n) :
    ∀ s ∈ spawnsOf env t, s < n := by
  intro s hs
  unfold spawnsOf at hs
  cases hg : env.get? t with
  | none => rw [hg] at hs; simp at hs
  | some spec =>
    rw [hg] at hs
    simp at hs
    exact hsp spec (List.get?_mem hg) s hs

theorem waitTask_live_bound (env : List TaskSpec) (st : SessionState)
    (t n : Nat) (hlive : ∀ u ∈ st.live, u < n)
    (hsp : ∀ spec ∈ env, ∀ s ∈ spec.spawns, s < n) :
    ∀ u ∈ (waitTask env st t).live, u < n := by
  intro u hu
  simp only [waitTask] at hu
  split at hu
  · rw [unregisterTask_live] at hu
    rcases List.mem_append.1 hu with hu | hu
    · exact hlive u (List.mem_of_mem_erase hu)
    · exact spawnsOf_bound env t n hsp u hu
  · rcases List.mem_append.1 hu with hu | hu
    · exact hlive u hu
    · exact spawnsOf_bound env t n hsp u hu

theorem foldl_waitIteration_silent (env : List TaskSpec) :
    ∀ (ts : List Nat) (st : SessionState) (errs : List ErrId),
      (ts.foldl (waitIteration env) (st, errs)).1.silent = st.silent := by
  intro ts
  induction ts with
  | nil => intro st errs; rfl
  | cons t ts ih =>
    intro st errs
    rw [List.foldl_cons]
    cases he : errOf env t
    · simp only [waitIteration, he]
      rw [ih]
      exact waitTask_silent env st t
    · simp only [waitIteration, he]
      rw [ih]
      exact waitTask_silent env st t

theorem foldl_waitIteration_errors (env : List TaskSpec) :
    ∀ (ts : List Nat) (st : SessionState) (errs : List ErrId),
      (ts.foldl (waitIteration env) (st, errs)).2 =
        errs ++ ts.filterMap (errOf env) := by
  intro ts
  induction ts with
  | nil => intro st errs; simp
  | cons t ts ih =>
    intro st errs
    rw [List.foldl_cons]
    cases he : errOf env t
    · simp only [waitIteration, he]
      rw [ih]
      simp [List.filterMap_cons, he]
    · simp only [waitIteration, he]
      rw [ih]
      simp [List.filterMap_cons, he]

theorem foldl_waitIteration_live_bound (env : List TaskSpec) (n : Nat)
    (hsp : ∀ spec ∈ env, ∀ s ∈ spec.spawns, s < n) :
    ∀ (ts : List Nat) (st : SessionState) (errs : List ErrId),
      (∀ u ∈ st.live, u < n) →
      ∀ u ∈ (ts.foldl (waitIteration env) (st, errs)).1.live, u < n := by
  intro ts
  induction ts with
  | nil => intro st errs h; exact h
  | cons t ts ih =>
    intro st errs h
    rw [List.foldl_cons]
    cases he : errOf env t
    · simp only [waitIteration, he]
      exact ih _ _ (waitTask_live_bound env st t n h hsp)
    · simp only [waitIteration, he]
      exact ih _ _ (waitTask_live_bound env st t n h hsp)

theorem foldl_waitIteration_live_mem (env : List TaskSpec) :
    ∀ (ts : List Nat) (st : SessionState) (errs : List ErrId) (s : Nat),
      (s ∈ st.live ∨ ∃ u ∈ ts, s ∈ spawnsOf env u) →
      s ∈ (ts.foldl (waitIteration env) (st, errs)).1.live ∨ s ∈ ts := by
  intro ts
  induction ts with
  | nil =>
    intro st errs s h
    rcases h with h | ⟨u, hu, _⟩
    · exact Or.inl h
    · simp at hu
  | cons t ts ih =>
    intro st errs s h
    rw [List.foldl_cons]
    have hs' : s ∈ (waitTask env st t).live ∨ s = t ∨
        ∃ u ∈ ts, s ∈ spawnsOf env u := by
      rcases h with h | ⟨u, hu, hsu⟩
      · rcases waitTask_live_mem env st t s (Or.inl h) with h' | h'
        · exact Or.inl h'
        · exact Or.inr (Or.inl h')
      · rcases List.mem_cons.1 hu with hu' | hu
        · rw [hu'] at hsu
          rcases waitTask_live_mem env st t s (Or.inr hsu) with h' | h'
          · exact Or.inl h'
          · exact Or.inr (Or.inl h')
        · exact Or.inr (Or.inr ⟨u, hu, hsu⟩)
    rcases hs' with h' | h' | h'
    · cases he : errOf env t
      · simp only [waitIteration, he]
        rcases ih (waitTask env st t) errs s (Or.inl h') with h'' | h''
        · exact Or.inl h''
        · exact Or.inr (List.mem_cons_of_mem _ h'')
      · simp only [waitIteration, he]
        rcases ih (waitTask env st t) (errs ++ _) s (Or.inl h') with h'' | h''
        · exact Or.inl h''
        · exact Or.inr (List.mem_cons_of_mem _ h'')
    · exact Or.inr (h' ▸ List.mem_cons_self s ts)
    · cases he : errOf env t
      · simp only [waitIteration, he]
        rcases ih (waitTask env st t) errs s (Or.inr h') with h'' | h''
        · exact Or.inl h''
        · exact Or.inr (List.mem_cons_of_mem _ h'')
      · simp only [waitIteration, he]
        rcases ih (waitTask env st t) (errs ++ _) s (Or.inr h') with h'' | h''
        · exact Or.inl h''
        · exact Or.inr (List.mem_cons_of_mem _ h'')

theorem mem_tasks_or_seen (st : SessionState) (seen : List Nat) (t : Nat)
    (h : t ∈ st.live) : t ∈ unseenTasks st seen ∨ t ∈ seen := by
  by_cases hs : t ∈ seen
  · exact Or.inr hs
  · exact Or.inl (List.mem_filter.2 ⟨List.mem_dedup.2 h, decide_eq_true hs⟩)

theorem unseenTasks_subset_live (st : SessionState) (seen : List Nat) :
    ∀ u ∈ unseenTasks st seen, u ∈ st.live := by
  intro u hu
  exact List.mem_dedup.1 (List.mem_of_mem_filter hu)

theorem unseenTasks_not_seen (st : SessionState) (seen : List Nat) :
    ∀ u ∈ unseenTasks st seen, u ∉ seen := by
  intro u hu
  simpa using List.of_mem_filter hu

theorem unseenTasks_nodup (st : SessionState) (seen : List Nat) :
    (unseenTasks st seen).Nodup :=
  (List.nodup_dedup st.live).filter _

theorem waitLoop_succ_nil (env : List TaskSpec) (fuel : Nat)
    (st : SessionState) (seen : List Nat) (errors : List ErrId)
    (h : unseenTasks st seen = []) :
    waitLoop env (fuel + 1) st seen errors =
      some (errors ++ st.silent, { st with silent := [] }, seen) := by
  simp only [waitLoop]
  rw [if_pos h]

theorem waitLoop_succ_cons (env : List TaskSpec) (fuel : Nat)
    (st : SessionState) (seen : List Nat) (errors : List ErrId)
    (h : unseenTasks st seen ≠ []) :
    waitLoop env (fuel + 1) st seen errors =
      waitLoop env fuel
        { ((unseenTasks st seen).foldl (waitIteration env)
            (st, errors ++ st.silent)).1 with silent := [] }
        (seen ++ unseenTasks st seen)
        ((unseenTasks st seen).foldl (waitIteration env)
          (st, errors ++ st.silent)).2 := by
  simp only [waitLoop]
  rw [if_neg h]

theorem waitLoop_total (env : List TaskSpec) :
    ∀ (fuel : Nat) (st : SessionState) (seen : List Nat) (errors : List ErrId),
      seen.Nodup →
      (∀ u ∈ seen, u < env.length) →
      (∀ u ∈ st.live, u < env.length) →
      (∀ spec ∈ env, ∀ s ∈ spec.spawns, s < env.length) →
      env.length - seen.length < fuel →
      ∃ r, waitLoop env fuel st seen errors = some r := by
  intro fuel
  induction fuel with
  | zero => intro st seen errors _ _ _ _ hf; omega
  | succ fuel ih =>
    intro st seen errors hnd hseen hlive hsp hf
    by_cases htasks : unseenTasks st seen = []
    · exact ⟨_, waitLoop_succ_nil env fuel st seen errors htasks⟩
    · have hseen' : (seen ++ unseenTasks st seen).Nodup := by
        refine List.Nodup.append hnd (unseenTasks_nodup st seen) ?_
        intro a ha hb
        exact unseenTasks_not_seen st seen a hb ha
      have hseenbound : ∀ u ∈ seen ++ unseenTasks st seen, u < env.length := by
        intro u hu
        rcases List.mem_append.1 hu with hu | hu
        · exact hseen u hu
        · exact hlive u (unseenTasks_subset_live st seen u hu)
      have hlen : (seen ++ unseenTasks st seen).length ≤ env.length := by
        have hsub : seen ++ unseenTasks st seen ⊆ List.range env.length := by
          intro a ha
          exact List.mem_range.2 (hseenbound a ha)
        have h1 := (List.subperm_of_subset hseen' hsub).length_le
        simpa using h1
      have hpos : 0 < (unseenTasks st seen).length := List.length_pos.2 htasks
      have hlen' : seen.length + (unseenTasks st seen).length ≤ env.length := by
        simpa using hlen
      obtain ⟨r, hr⟩ := ih
        { ((unseenTasks st seen).foldl (waitIteration env)
            (st, errors ++ st.silent)).1 with silent := [] }
        (seen ++ unseenTasks st seen)
        ((unseenTasks st seen).foldl (waitIteration env)
          (st, errors ++ st.silent)).2
        hseen' hseenbound
        (foldl_waitIteration_live_bound env env.length hsp _ st _ hlive)
        hsp (by simp only [List.length_append]; omega)
      exact ⟨r, by rw [waitLoop_succ_cons env fuel st seen errors htasks]; exact hr⟩

theorem waitLoop_eq (env : List TaskSpec) :
    ∀ (fuel : Nat) (st : SessionState) (seen : List Nat)
      (errors errs : List ErrId) (st' : SessionState) (seen' : List Nat),
      waitLoop env fuel st seen errors = some (errs, st', seen') →
      st'.silent = [] ∧
      ∃ Δ, seen' = seen ++ Δ ∧
        errs = errors ++ st.silent ++ Δ.filterMap (errOf env) := by
  intro fuel
  induction fuel with
  | zero => intro st seen errors errs st' seen' h; simp [waitLoop] at h
  | succ fuel ih =>
    intro st seen errors errs st' seen' h
    by_cases htasks : unseenTasks st seen = []
    · rw [waitLoop_succ_nil env fuel st seen errors htasks] at h
      rw [Option.some.injEq, Prod.mk.injEq, Prod.mk.injEq] at h
      obtain ⟨h1, h2, h3⟩ := h
      refine ⟨by rw [← h2], [], by rw [← h3]; simp, by rw [← h1]; simp⟩
    · rw [waitLoop_succ_cons env fuel st seen errors htasks] at h
      obtain ⟨hsil, Δ', hseen', herrs⟩ := ih _ _ _ _ _ _ h
      refine ⟨hsil, unseenTasks st seen ++ Δ', ?_, ?_⟩
      · rw [hseen', List.append_assoc]
      · rw [herrs, foldl_waitIteration_errors]
        simp [List.filterMap_append, List.append_assoc]

theorem waitLoop_seen_spec (env : List TaskSpec) :
    ∀ (fuel : Nat) (st : SessionState) (seen : List Nat)
      (errors errs : List ErrId) (st' : SessionState) (seen' : List Nat),
      waitLoop env fuel st seen errors = some (errs, st', seen') →
      (∀ x ∈ seen, x ∈ seen') ∧
      (∀ t ∈ st.live, t ∈ seen') ∧
      ((∀ u ∈ seen, ∀ s ∈ spawnsOf env u, s ∈ st.live ∨ s ∈ seen) →
       (∀ u ∈ seen, ∀ e, errOf env u = some e → e ∈ errors) →
        (∀ u ∈ seen', ∀ s ∈ spawnsOf env u, s ∈ seen') ∧
        (∀ u ∈ seen', ∀ e, errOf env u = some e → e ∈ errs)) := by
  intro fuel
  induction fuel with
  | zero => intro st seen errors errs st' seen' h; simp [waitLoop] at h
  | succ fuel ih =>
    intro st seen errors errs st' seen' h
    by_cases htasks : unseenTasks st seen = []
    · rw [waitLoop_succ_nil env fuel st seen errors htasks] at h
      rw [Option.some.injEq, Prod.mk.injEq, Prod.mk.injEq] at h
      obtain ⟨h1, _, h3⟩ := h
      have hlive_seen : ∀ t ∈ st.live, t ∈ seen := by
        intro t ht
        rcases mem_tasks_or_seen st seen t ht with hm | hm
        · rw [htasks] at hm; simp at hm
        · exact hm
      refine ⟨by rw [← h3]; exact fun x hx => hx,
        by rw [← h3]; exact hlive_seen, ?_⟩
      intro hsp herr
      refine ⟨?_, ?_⟩
      · intro u hu s hs
        rw [← h3] at hu ⊢
        rcases hsp u hu s hs with hm | hm
        · exact hlive_seen s hm
        · exact hm
      · intro u hu e he
        rw [← h3] at hu
        rw [← h1]
        exact List.mem_append_left _ (herr u hu e he)
    · rw [waitLoop_succ_cons env fuel st seen errors htasks] at h
      obtain ⟨ihseen, ihlive, ihinv⟩ := ih _ _ _ _ _ _ h
      have hseen_sub : ∀ x ∈ seen, x ∈ seen' := by
        intro x hx
        exact ihseen x (List.mem_append_left _ hx)
      have htasks_sub : ∀ x ∈ unseenTasks st seen, x ∈ seen' := by
        intro x hx
        exact ihseen x (List.mem_append_right _ hx)
      have hlive_sub : ∀ t ∈ st.live, t ∈ seen' := by
        intro t ht
        rcases mem_tasks_or_seen st seen t ht with hm | hm
        · exact htasks_sub t hm
        · exact hseen_sub t hm
      refine ⟨hseen_sub, hlive_sub, ?_⟩
      intro hsp herr
      refine ihinv ?_ ?_
      · intro u hu s hs
        rcases List.mem_append.1 hu with hu | hu
        · rcases hsp u hu s hs with hm | hm
          · rcases mem_tasks_or_seen st seen s hm with hm' | hm'
            · exact Or.inr (List.mem_append_right _ hm')
            · exact Or.inr (List.mem_append_left _ hm')
          · exact Or.inr (List.mem_append_left _ hm)
        · rcases foldl_waitIteration_live_mem env (unseenTasks st seen) st
              (errors ++ st.silent) s (Or.inr ⟨u, hu, hs⟩) with hm | hm
          · exact Or.inl hm
          · exact Or.inr (List.mem_append_right _ hm)
      · intro u hu e he
        rw [foldl_waitIteration_errors]
        rcases List.mem_append.1 hu with hu | hu
        · exact List.mem_append_left _ (List.mem_append_left _ (herr u hu e he))
        · exact List.mem_append_right _
            (List.mem_filterMap.2 ⟨u, hu, he⟩)

theorem unregisterTask_eq_of_waited (env : List TaskSpec) (st : SessionState)
    (t : Nat) (hw : t ∈ st.waited) :
    unregisterTask env st t = { st with live := st.live.erase t } := by
  simp [unregisterTask, hw]

theorem unregisterTask_eq_of_err (env : List TaskSpec) (st : SessionState)
    (t : Nat) (e : ErrId) (hw : t ∉ st.waited) (he : errOf env t = some e) :
    unregisterTask env st t =
      { st with live := st.live.erase t, silent := st.silent ++ [e] } := by
  simp [unregisterTask, hw, he]

theorem unregisterTask_eq_of_no_err (env : List TaskSpec) (st : SessionState)
    (t : Nat) (he : errOf env t = none) :
    unregisterTask env st t = { st with live := st.live.erase t } := by
  by_cases hw : t ∈ st.waited <;> simp [unregisterTask, hw, he]

/-- Claim C10: wait_for_tasks terminates whenever only finitely many tasks
exist: each live task is waited at most once per call, so the loop reaches
its fixed point within env.length + 1 iterations even if some finished task
never unregisters itself from the session. -/
theorem wait_for_tasks_terminates (env : List TaskSpec) (st : SessionState)
    (hlive : ∀ u ∈ st.live, u < env.length)
    (hsp : ∀ spec ∈ env, ∀ s ∈ spec.spawns, s < env.length) :
    ∃ r, wait_for_tasks env st = some r :=
  waitLoop_total env (env.length + 1) st [] [] List.nodup_nil (by simp)
    hlive hsp (by omega)

/-- Claim C10 witness: termination on a session whose only task stays in the
live list forever because it never unregisters itself. -/
theorem wait_for_tasks_terminates_witness :
    ∃ r, wait_for_tasks envW10 stW10 = some r :=
  wait_for_tasks_terminates envW10 stW10 (by decide) (by decide)

/-- Claim C5: wait_for_tasks re-snapshots the live set and waits every live
task not yet seen until a fixed point is reached; consequently every
initially live task is waited, every task registered during the call by a
waited task's finished callback is itself waited by the same call, and the
error of every waited task is included in that call's result. -/
theorem wait_for_tasks_transitive (env : List TaskSpec) (st : SessionState)
    (hlive : ∀ u ∈ st.live, u < env.length)
    (hsp : ∀ spec ∈ env, ∀ s ∈ spec.spawns, s < env.length) :
    ∃ errs st' seen, wait_for_tasks env st = some (errs, st', seen) ∧
      (∀ t ∈ st.live, t ∈ seen) ∧
      (∀ u ∈ seen, ∀ s ∈ spawnsOf env u, s ∈ seen) ∧
      (∀ u ∈ seen, ∀ e, errOf env u = some e → e ∈ errs) := by
  obtain ⟨⟨errs, st', seen⟩, hr⟩ := waitLoop_total env (env.length + 1) st [] []
    List.nodup_nil (by simp) hlive hsp (by omega)
  obtain ⟨hseen_sub, hlive_sub, hinv⟩ := waitLoop_seen_spec env _ _ _ _ _ _ _ hr
  obtain ⟨hsp_closed, herr_closed⟩ := hinv (by simp) (by simp)
  exact ⟨errs, st', seen, hr, hlive_sub, hsp_closed, herr_closed⟩

/-- Claim C5 witness: a live task whose finished callback starts a second,
failing task; the second task is waited by the same call and its error is
collected. -/
theorem wait_for_tasks_transitive_witness :
    ∃ errs st' seen, wait_for_tasks envW5 stW5 = some (errs, st', seen) ∧
      (∀ t ∈ stW5.live, t ∈ seen) ∧
      (∀ u ∈ seen, ∀ s ∈ spawnsOf envW5 u, s ∈ seen) ∧
      (∀ u ∈ seen, ∀ e, errOf envW5 u = some e → e ∈ errs) :=
  wait_for_tasks_transitive envW5 stW5 (by decide) (by decide)

/-- Claim C4: a task unregistered while not explicitly waited and carrying an
error has that error retained in the silent-error list; the next
wait_for_tasks call reports it exactly once — its multiplicity in the result
is exactly its multiplicity in the silent list plus the contributions of the
tasks waited in that call — and clears the silent list, so a subsequent call
reports only errors of tasks it waits itself. -/
theorem silent_error_reported_once (env : List TaskSpec) (st : SessionState)
    (t : Nat) (e : ErrId) (hw : t ∉ st.waited) (he : errOf env t = some e)
    (hlive : ∀ u ∈ (unregisterTask env st t).live, u < env.length)
    (hsp : ∀ spec ∈ env, ∀ s ∈ spec.spawns, s < env.length) :
    (unregisterTask env st t).silent = st.silent ++ [e] ∧
    ∃ errs st2 seen,
      wait_for_tasks env (unregisterTask env st t) = some (errs, st2, seen) ∧
      e ∈ errs ∧
      errs.count e =
        (st.silent ++ [e]).count e + (seen.filterMap (errOf env)).count e ∧
      st2.silent = [] ∧
      ∀ errs2 st3 seen2, wait_for_tasks env st2 = some (errs2, st3, seen2) →
        errs2.count e = (seen2.filterMap (errOf env)).count e := by
  have hsil : (unregisterTask env st t).silent = st.silent ++ [e] := by
    rw [unregisterTask_eq_of_err env st t e hw he]
  refine ⟨hsil, ?_⟩
  obtain ⟨⟨errs, st2, seen⟩, hr⟩ := waitLoop_total env (env.length + 1)
    (unregisterTask env st t) [] [] List.nodup_nil (by simp) hlive hsp
    (by omega)
  obtain ⟨hsil2, Δ, hΔ, herrs⟩ := waitLoop_eq env _ _ _ _ _ _ _ hr
  refine ⟨errs, st2, seen, hr, ?_, ?_, hsil2, ?_⟩
  · rw [herrs, hsil]
    simp
  · rw [herrs, hsil, hΔ]
    simp [List.count_append]
    omega
  · intro errs2 st3 seen2 h2
    obtain ⟨_, Δ2, hΔ2, herrs2⟩ := waitLoop_eq env _ _ _ _ _ _ _ h2
    rw [herrs2, hsil2, hΔ2]
    simp [List.count_append]

/-- Claim C4 witness: task 0 finishes with error 7 unwaited and unregisters;
the next wait_for_tasks reports error 7 exactly once and the call after that
reports nothing. -/
theorem silent_error_reported_once_witness :
    (unregisterTask envW4 stW4 0).silent = stW4.silent ++ [7] ∧
    ∃ errs st2 seen,
      wait_for_tasks envW4 (unregisterTask envW4 stW4 0) =
        some (errs, st2, seen) ∧
      7 ∈ errs ∧
      errs.count 7 =
        (stW4.silent ++ [7]).count 7 + (seen.filterMap (errOf envW4)).count 7 ∧
      st2.silent = [] ∧
      ∀ errs2 st3 seen2, wait_for_tasks envW4 st2 = some (errs2, st3, seen2) →
        errs2.count 7 = (seen2.filterMap (errOf envW4)).count 7 :=
  silent_error_reported_once envW4 stW4 0 7 (by decide) (by decide)
    (by decide) (by decide)

/-- Claim C8 counterexample: unregistering the same errored, never-waited
task twice leaves the live list as a single unregistration would, but appends
the task's error to the silent-error list a second time, so the state is not
the one a single unregistration produces. -/
theorem unregister_not_idempotent_cx :
    (unregisterTask envW8 (unregisterTask envW8 stW8 0) 0).silent = [3, 3] ∧
    (unregisterTask envW8 stW8 0).silent = [3] ∧
    (unregisterTask envW8 (unregisterTask envW8 stW8 0) 0).live =
      (unregisterTask envW8 stW8 0).live := by
  decide

/-- Claim C8 (amended): unregistering a task absent from the live list raises
no error and leaves the live list and the explicit-wait state unchanged, and
is a complete no-op when the task was explicitly waited or carries no error;
but the silent-error capture runs unconditionally, so unregistering an
absent, never-waited task that carries an error appends that error to the
silent-error list again. -/
theorem unregister_absent_task (env : List TaskSpec) (st : SessionState)
    (t : Nat) (h : t ∉ st.live) :
    (unregisterTask env st t).live = st.live ∧
    (unregisterTask env st t).waited = st.waited ∧
    ((t ∈ st.waited ∨ errOf env t = none) → unregisterTask env st t = st) ∧
    (∀ e, t ∉ st.waited → errOf env t = some e →
      (unregisterTask env st t).silent = st.silent ++ [e]) := by
  have herase : st.live.erase t = st.live := List.erase_of_not_mem h
  refine ⟨by rw [unregisterTask_live, herase],
    unregisterTask_waited env st t, ?_, ?_⟩
  · intro hcase
    rcases hcase with hw | he
    · rw [unregisterTask_eq_of_waited env st t hw, herase]
    · rw [unregisterTask_eq_of_no_err env st t he, herase]
  · intro e hw he
    rw [unregisterTask_eq_of_err env st t e hw he]

/-- Claim C8 (amended) witness: unregistering task 0 from a session in which
it is not live. -/
theorem unregister_absent_task_witness :
    (unregisterTask envW8 stW8b 0).live = stW8b.live ∧
    (unregisterTask envW8 stW8b 0).waited = stW8b.waited ∧
    ((0 ∈ stW8b.waited ∨ errOf envW8 0 = none) →
      unregisterTask envW8 stW8b 0 = stW8b) ∧
    (∀ e, 0 ∉ stW8b.waited → errOf envW8 0 = some e →
      (unregisterTask envW8 stW8b 0).silent = stW8b.silent ++ [e]) :=
  unregister_absent_task envW8 stW8b 0 (by decide)

/-- Claim C3: CommandTask.error returns a timeout error exactly when the
multiplexer signalled timeout; otherwise it returns an exit-code error if and
only if an exit code has been recorded, an expected exit code was specified,
and the two differ; in every other case — including while the task is still
running (no recorded code) and when no exit code is expected — it returns
None. -/
theorem commandTask_error_spec (t : CommandTaskState) :
    (t.timed_out = true → CommandTask.error t = some TaskErr.timeoutError) ∧
    (t.timed_out = false →
      ((∃ c, CommandTask.error t = some (TaskErr.exitCodeError c)) ↔
        ∃ c e, t.exit_code = some c ∧ t.expected_exit_code = some e ∧ c ≠ e)) ∧
    (t.timed_out = false →
      (t.exit_code = none ∨ t.expected_exit_code = none ∨
        t.exit_code = t.expected_exit_code) →
      CommandTask.error t = none) := by
  obtain ⟨tod, ec, eec⟩ := t
  refine ⟨?_, ?_, ?_⟩
  · intro h
    subst h
    rfl
  · intro h
    subst h
    cases ec with
    | none => simp [CommandTask.error]
    | some c =>
      cases eec with
      | none => simp [CommandTask.error]
      | some e =>
        by_cases hce : c = e
        · subst hce
          simp [CommandTask.error]
        · simp [CommandTask.error, hce]
  · intro h hcase
    subst h
    cases ec with
    | none => simp [CommandTask.error]
    | some c =>
      cases eec with
      | none => simp [CommandTask.error]
      | some e =>
        rcases hcase with h1 | h1 | h1
        · exact absurd h1 (by simp)
        · exact absurd h1 (by simp)
        · simp only [Option.some.injEq] at h1
          simp [CommandTask.error, h1]

/-- Claim C3 witness: a timed-out task yields a timeout error; a task with
recorded code 1 and no expected code yields none; a task with recorded code 1
and expected code 0 yields an exit-code error. -/
theorem commandTask_error_spec_witness :
    CommandTask.error
        { timed_out := true, exit_code := none, expected_exit_code := some 0 } =
      some TaskErr.timeoutError ∧
    CommandTask.error
        { timed_out := false, exit_code := some 1,
          expected_exit_code := none } = none ∧
    ∃ c, CommandTask.error
        { timed_out := false, exit_code := some 1,
          expected_exit_code := some 0 } = some (TaskErr.exitCodeError c) :=
  ⟨(commandTask_error_spec _).1 rfl,
   (commandTask_error_spec _).2.2 rfl (Or.inr (Or.inl rfl)),
   ((commandTask_error_spec _).2.1 rfl).2 ⟨1, 0, rfl, rfl, by decide⟩⟩

/-- Claim C7 (code bug): the combine-stderr default is "not stderr_callback"
computed before the deprecation aliasing runs, so it depends only on the
deprecated stderr_callback parameter: supplying only the new on_stderr
parameter leaves the default true — stderr is merged into stdout and the
separate callback can never fire — while supplying the deprecated parameter
makes it false. -/
theorem init_combine_stderr_ignores_on_stderr :
    CommandTask.init_combine_stderr none true false = true ∧
    CommandTask.init_combine_stderr none false true = false ∧
    (∀ on_stderr stderr_callback : Bool,
      CommandTask.init_combine_stderr none on_stderr stderr_callback =
        !stderr_callback) ∧
    (∀ b on_stderr stderr_callback : Bool,
      CommandTask.init_combine_stderr (some b) on_stderr stderr_callback =
        b) := by
  decide

/-- Claim C6 (code bug): LocalSession.walk builds the os.walk generator and
discards it; the method body has no return statement, so every call returns
None instead of an iterable of (directory, subdirectories, files) triples,
whatever os.walk would have yielded. -/
theorem localSession_walk_returns_none
    (oswalk : String → Bool → Bool → Bool → List WalkTriple) (top : String)
    (topdown has_onerror followlinks : Bool) :
    LocalSession.walk oswalk top topdown has_onerror followlinks = none := rfl

/-- Claim C6 witness: the walk result is None on a concrete path even though
the modelled os.walk yields a non-empty listing there. -/
theorem localSession_walk_returns_none_witness :
    LocalSession.walk oswalkW6 "/tmp" true false false = none ∧
    oswalkW6 "/tmp" true false false ≠ [] :=
  ⟨localSession_walk_returns_none oswalkW6 "/tmp" true false false, by decide⟩
